import Mathlib

/-!
Shallow embedding of the skydive ElasticSearch graph backend
(the `graph` package file under `src/unnamed/part_000`) and of the flow
application port map (`src/flow/application.go`), together with theorems
checking the specification's claims about them.

Timestamps are modelled as epoch milliseconds (`Int`); `common.UnixMillis`
is therefore the identity on these fields, and Go's zero `time.Time` is
encoded as `0`.  The external ElasticSearch store client (repository code
outside `src/`) is modelled from the spec as a document store driven by
outcome schedules that inject store errors, rollover signals and search
results.
-/

namespace Skydive

/-- Identifier of a graph element. -/
abbrev Identifier := String

/-- Field values of a persisted document. -/
inductive Value where
  | str (s : String)
  | int (n : Int)
  | meta (m : List (String × String))
deriving DecidableEq, Repr

/-- A persisted document: an association list of fields. -/
abbrev Doc := List (String × Value)

/-- Look up a field of a document. -/
def lookupField : Doc → String → Option Value
  | [], _ => none
  | (k, v) :: rest, key => if k = key then some v else lookupField rest key

/-- Set a field of a document, replacing an existing value. -/
def setField : Doc → String → Value → Doc
  | [], key, v => [(key, v)]
  | (k, w) :: rest, key, v =>
      if k = key then (k, v) :: rest else (k, w) :: setField rest key v

/-- Merge a partial document into a document, field by field. -/
def mergeDoc (d : Doc) (p : Doc) : Doc :=
  p.foldl (fun acc kv => setField acc kv.1 kv.2) d

/-- The shared part of nodes and edges (Go `graphElement`). -/
structure GraphElement where
  ID : Identifier
  host : String
  createdAt : Int
  updatedAt : Int
  deletedAt : Int
  metadata : List (String × String)
  revision : Int
deriving DecidableEq, Repr

/-- A node is exactly a graph element. -/
abbrev Node := GraphElement

/-- An edge is a graph element plus parent and child node identifiers. -/
structure Edge where
  base : GraphElement
  parent : Identifier
  child : Identifier
deriving DecidableEq, Repr

/-- A node or an edge, as passed to `updateTimes` and `MetadataUpdated`. -/
inductive Element where
  | node (n : Node)
  | edge (e : Edge)
deriving DecidableEq, Repr

/-- The store kind string of an element. -/
def Element.kind : Element → String
  | .node _ => "node"
  | .edge _ => "edge"

/-- The identifier of an element. -/
def Element.eID : Element → Identifier
  | .node n => n.ID
  | .edge e => e.base.ID

/-- The updated-at timestamp of an element, in milliseconds. -/
def Element.updatedMillis : Element → Int
  | .node n => n.updatedAt
  | .edge e => e.base.updatedAt

/-- The revision of an element. -/
def Element.rev : Element → Int
  | .node n => n.revision
  | .edge e => e.base.revision

/-- A raw hit returned by the store: it decodes to a node, or to an edge,
or fails to decode (malformed source). -/
inductive RawSource where
  | node (n : Node)
  | edge (e : Edge)
  | malformed
deriving DecidableEq, Repr

/-- Go zero value of `Node`. -/
def zeroNode : Node :=
  { ID := "", host := "", createdAt := 0, updatedAt := 0, deletedAt := 0,
    metadata := [], revision := 0 }

/-- Go zero value of `Edge`. -/
def zeroEdge : Edge := { base := zeroNode, parent := "", child := "" }

/-- hitToNode (lines 210-219): decode a raw hit into a node. -/
def hitToNode : RawSource → Except Unit Node
  | .node n => .ok n
  | _ => .error ()

/-- hitToEdge (lines 221-230): decode a raw hit into an edge. -/
def hitToEdge : RawSource → Except Unit Edge
  | .edge e => .ok e
  | _ => .error ()

/-- The node appended by `searchNodes` for one hit: the decoded value on
success, and the zero value otherwise (the Go code appends the local
variable whether or not decoding succeeded). -/
def decodeNode (h : RawSource) : Node :=
  match hitToNode h with
  | .ok n => n
  | .error _ => zeroNode

/-- The edge appended by `searchEdges` for one hit. -/
def decodeEdge (h : RawSource) : Edge :=
  match hitToEdge h with
  | .ok e => e
  | .error _ => zeroEdge

/-- Filters of the `filters` package, restricted to the shapes this
backend constructs. -/
inductive Filter where
  | termString (field value : String)
  | timeRange (first last : Int)
  | forEdge (parent child : Identifier)
deriving DecidableEq, Repr

/-- NewTermStringFilter of the `filters` package. -/
def NewTermStringFilter (field value : String) : Filter := .termString field value

/-- Modelled from the spec: `getTimeFilter` (graph package, not under
`src/`) yields no filter when no time slice is given, and a filter for the
slice otherwise. -/
def getTimeFilter : Option (Int × Int) → Option Filter
  | none => none
  | some (s, l) => some (.timeRange s l)

/-- Modelled from the spec: `NewFilterForEdge` (graph package, not under
`src/`) matches edges whose parent or child is the given identifier. -/
def NewFilterForEdge (parent child : Identifier) : Filter := .forEdge parent child

/-- Value of a possibly Metadata-prefixed field of a document. -/
def docValueAt (d : Doc) (pfx field : String) : Option Value :=
  if pfx = "" then lookupField d field
  else
    match lookupField d pfx with
    | some (.meta m) =>
        match m.lookup field with
        | some s => some (.str s)
        | none => none
    | _ => none

/-- Modelled from the spec: evaluation of a formatted filter against a
document (the store's query execution is external; a time filter keeps
documents whose validity overlapped the slice). -/
def Filter.evalDoc : Filter → String → Doc → Bool
  | .termString field value, pfx, d =>
      decide (docValueAt d pfx field = some (.str value))
  | .timeRange s l, _, d =>
      (match lookupField d "CreatedAt" with
       | some (.int c) => decide (c ≤ l)
       | _ => false)
      &&
      (match lookupField d "ArchivedAt" with
       | some (.int a) => decide (s ≤ a)
       | _ => true)
  | .forEdge parent child, _, d =>
      decide (lookupField d "Parent" = some (.str parent)) ||
      decide (lookupField d "Child" = some (.str child))

/-- A `filters.SearchQuery`, restricted to the fields this backend uses. -/
structure SearchQuery where
  filter : Option Filter := none
  sort : Bool := false
  sortBy : String := ""
deriving DecidableEq, Repr

/-- TimedSearchQuery (lines 122-127). -/
structure TimedSearchQuery where
  searchQuery : SearchQuery
  timeFilter : Option Filter := none
  metadataFilter : Option Filter := none
deriving DecidableEq, Repr

/-- A formatted filter fragment: the filter plus the field prefix it was
formatted with. -/
abbrev Fragment := Filter × String

/-- Modelled from the spec: `FormatFilter` of the store client returns nil
exactly when the given filter is nil. -/
def FormatFilter (f : Option Filter) (pfx : String) : Option Fragment :=
  f.map (fun g => (g, pfx))

/-- The elastic bool/must query built by `Query`: a conjunction of
formatted fragments. -/
structure ESQuery where
  clauses : List Fragment
deriving DecidableEq, Repr

/-- Conjunction semantics of a must query; an empty clause list matches
every document. -/
def ESQuery.matchesDoc (q : ESQuery) (d : Doc) : Bool :=
  q.clauses.all fun fp => fp.1.evalDoc fp.2 d

/-- The query constructed by `Query` (lines 412-426): the formatted time
filter, element filter and metadata filter in that order, nil fragments
omitted. -/
def mustQuery (tsq : TimedSearchQuery) : ESQuery :=
  let l1 : List Fragment :=
    match FormatFilter tsq.timeFilter "" with
    | some q => [q]
    | none => []
  let l2 : List Fragment :=
    match FormatFilter tsq.searchQuery.filter "" with
    | some q => l1 ++ [q]
    | none => l1
  let l3 : List Fragment :=
    match FormatFilter tsq.metadataFilter "Metadata" with
    | some q => l2 ++ [q]
    | none => l2
  ⟨l3⟩

/-- Key of a stored document: index generation, kind, document id. -/
abbrev DocKey := Nat × String × String

/-- Look up a document by key. -/
def docsLookup : List (DocKey × Doc) → DocKey → Option Doc
  | [], _ => none
  | (k, d) :: rest, key => if k = key then some d else docsLookup rest key

/-- Index a document, replacing any document with the same key. -/
def docsInsert : List (DocKey × Doc) → DocKey → Doc → List (DocKey × Doc)
  | [], key, d => [(key, d)]
  | (k, e) :: rest, key, d =>
      if k = key then (k, d) :: rest else (k, e) :: docsInsert rest key d

/-- Apply a partial update to the document with the given key (upserting
when absent). -/
def docsMerge : List (DocKey × Doc) → DocKey → Doc → List (DocKey × Doc)
  | [], key, p => [(key, p)]
  | (k, e) :: rest, key, p =>
      if k = key then (k, mergeDoc e p) :: rest else (k, e) :: docsMerge rest key p

/-- Modelled from the spec: the external store client
(`storage/elasticsearch`, not under `src/`).  The outcome schedules inject
store errors, rollover signals and search results; an exhausted schedule
means success (with no rollover signal, and an empty search result). -/
structure Client where
  currentIndex : Nat
  indexAlias : String
  docs : List (DocKey × Doc)
  bulkIndexOutcomes : List (Option Bool)
  bulkUpdateOutcomes : List Bool
  rollOutcomes : List Bool
  searchOutcomes : List (Option (List RawSource))
deriving DecidableEq, Repr

/-- The outcome the next BulkIndex call will see. -/
def nextBulkIndexOutcome (c : Client) : Option Bool :=
  c.bulkIndexOutcomes.headD (some false)

/-- The outcome the next Search call will see. -/
def nextSearchOutcome (c : Client) : Option (List RawSource) :=
  c.searchOutcomes.headD (some [])

/-- BulkIndex: index a document under the current index; `none` is a store
error, `some shouldRoll` is success plus the rollover signal. -/
def Client.bulkIndex (c : Client) (kind id : String) (obj : Doc) :
    Option Bool × Client :=
  match nextBulkIndexOutcome c with
  | none => (none, { c with bulkIndexOutcomes := c.bulkIndexOutcomes.tail })
  | some roll =>
      (some roll,
        { c with
            docs := docsInsert c.docs (c.currentIndex, kind, id) obj,
            bulkIndexOutcomes := c.bulkIndexOutcomes.tail })

/-- BulkUpdateWithPartialDoc: partial update of a document under the
current index; `false` is a store error. -/
def Client.bulkUpdateWithPartialDoc (c : Client) (kind id : String) (p : Doc) :
    Bool × Client :=
  if c.bulkUpdateOutcomes.headD true then
    (true,
      { c with
          docs := docsMerge c.docs (c.currentIndex, kind, id) p,
          bulkUpdateOutcomes := c.bulkUpdateOutcomes.tail })
  else
    (false, { c with bulkUpdateOutcomes := c.bulkUpdateOutcomes.tail })

/-- RollIndex: make a fresh index the live target. -/
def Client.rollIndex (c : Client) : Bool × Client :=
  if c.rollOutcomes.headD true then
    (true, { c with currentIndex := c.currentIndex + 1,
                    rollOutcomes := c.rollOutcomes.tail })
  else
    (false, { c with rollOutcomes := c.rollOutcomes.tail })

/-- Search: query execution happens in the external store, so the raw hits
come from the schedule (`none` is a store error). -/
def Client.search (c : Client) (_obj : String) (_q : ESQuery) (_index : String)
    (_sq : SearchQuery) : Option (List RawSource) × Client :=
  (nextSearchOutcome c, { c with searchOutcomes := c.searchOutcomes.tail })

/-- ElasticSearchBackend (lines 116-120): the store client plus the
revision tracker. -/
structure Backend where
  client : Client
  prevRevision : List (Identifier × Int)
deriving DecidableEq, Repr

/-- Look up the tracked revision of an identifier. -/
def lookupRev : List (Identifier × Int) → Identifier → Option Int
  | [], _ => none
  | (k, r) :: rest, key => if k = key then some r else lookupRev rest key

/-- Set the tracked revision of an identifier. -/
def insertRev : List (Identifier × Int) → Identifier → Int → List (Identifier × Int)
  | [], key, r => [(key, r)]
  | (k, s) :: rest, key, r =>
      if k = key then (k, r) :: rest else (k, s) :: insertRev rest key r

/-- Remove an identifier from the tracker. -/
def eraseRev : List (Identifier × Int) → Identifier → List (Identifier × Int)
  | [], _ => []
  | (k, s) :: rest, key =>
      if k = key then eraseRev rest key else (k, s) :: eraseRev rest key

/-- mapElement (lines 129-144). -/
def mapElement (e : GraphElement) : Doc :=
  let obj : Doc :=
    [("ID", .str e.ID), ("Host", .str e.host), ("CreatedAt", .int e.createdAt),
     ("UpdatedAt", .int e.updatedAt), ("Metadata", .meta e.metadata),
     ("Revision", .int e.revision)]
  if e.deletedAt = 0 then obj else setField obj "DeletedAt" (.int e.deletedAt)

/-- mapNode (lines 146-148). -/
def mapNode (n : Node) : Doc := mapElement n

/-- mapEdge (lines 150-155). -/
def mapEdge (e : Edge) : Doc :=
  setField (setField (mapElement e.base) "Parent" (.str e.parent))
    "Child" (.str e.child)

/-- The document written for an element. -/
def Element.mapped : Element → Doc
  | .node n => mapNode n
  | .edge e => mapEdge e

/-- Document id: the element id, a dash, and the decimal revision. -/
def docID (i : Identifier) (rev : Int) : String := i ++ "-" ++ toString rev

/-- updateTimes (lines 175-208): look up the prior revision in the
tracker (miss aborts with no store write), then stamp `ArchivedAt` on the
prior revision's document with a partial update. -/
def Backend.updateTimes (b : Backend) (i : Element) : Bool × Backend :=
  match lookupRev b.prevRevision i.eID with
  | none => (false, b)
  | some revision =>
      let res := b.client.bulkUpdateWithPartialDoc i.kind (docID i.eID revision)
        [("ArchivedAt", .int i.updatedMillis)]
      (res.1, { b with client := res.2 })

/-- Query (lines 411-429): build the must query and run the search. -/
def Backend.query (b : Backend) (obj : String) (tsq : TimedSearchQuery)
    (index : String) : Option (List RawSource) × Backend :=
  let res := b.client.search obj (mustQuery tsq) index tsq.searchQuery
  (res.1, { b with client := res.2 })

/-- searchNodes (lines 432-450): a failed query yields no nodes; every hit
of a successful query contributes exactly one node. -/
def Backend.searchNodes (b : Backend) (tsq : TimedSearchQuery) (index : String) :
    List Node × Backend :=
  match b.query "node" tsq index with
  | (none, b1) => ([], b1)
  | (some hits, b1) => (hits.map decodeNode, b1)

/-- searchEdges (lines 453-471). -/
def Backend.searchEdges (b : Backend) (tsq : TimedSearchQuery) (index : String) :
    List Edge × Backend :=
  match b.query "edge" tsq index with
  | (none, b1) => ([], b1)
  | (some hits, b1) => (hits.map decodeEdge, b1)

/-- GraphContext: an optional time slice plus the time-point flag. -/
structure GraphContext where
  timeSlice : Option (Int × Int)
  timePoint : Bool
deriving DecidableEq, Repr

/-- A metadata matcher: its Filter method yields an optional filter or an
error. -/
structure GraphElementMatcher where
  filterResult : Except String (Option Filter)
deriving Repr

/-- GetNode (lines 277-296). -/
def Backend.GetNode (b : Backend) (i : Identifier) (t : GraphContext) :
    List Node × Backend :=
  let index := match t.timeSlice with
    | none => b.client.indexAlias
    | some _ => ""
  let res := b.searchNodes
    { searchQuery :=
        { filter := some (NewTermStringFilter "ID" i), sort := true,
          sortBy := "Revision" },
      timeFilter := getTimeFilter t.timeSlice }
    index
  if 1 < res.1.length ∧ t.timePoint = true then
    (res.1.getLast?.toList, res.2)
  else res

/-- GetEdge (lines 372-391). -/
def Backend.GetEdge (b : Backend) (i : Identifier) (t : GraphContext) :
    List Edge × Backend :=
  let index := match t.timeSlice with
    | none => b.client.indexAlias
    | some _ => ""
  let res := b.searchEdges
    { searchQuery :=
        { filter := some (NewTermStringFilter "ID" i), sort := true,
          sortBy := "Revision" },
      timeFilter := getTimeFilter t.timeSlice }
    index
  if 1 < res.1.length ∧ t.timePoint = true then
    (res.1.getLast?.toList, res.2)
  else res

/-- Modelled from the spec: `dedupNodes` (graph package, not under `src/`)
keeps, per id, only the most recent element in sort order (the last
occurrence). -/
def dedupNodes : List Node → List Node
  | [] => []
  | n :: rest =>
      if rest.any (fun m => m.ID == n.ID) then dedupNodes rest
      else n :: dedupNodes rest

/-- Modelled from the spec: `dedupEdges` (graph package, not under
`src/`). -/
def dedupEdges : List Edge → List Edge
  | [] => []
  | e :: rest =>
      if rest.any (fun f => f.base.ID == e.base.ID) then dedupEdges rest
      else e :: dedupEdges rest

/-- The search-and-dedup tail of `GetNodes` after the matcher check. -/
def Backend.getNodesSearch (b : Backend) (t : GraphContext)
    (filter : Option Filter) (index : String) : List Node × Backend :=
  let sq : SearchQuery :=
    if t.timePoint = false then
      { filter := none, sort := true, sortBy := "UpdatedAt" }
    else {}
  let res := b.searchNodes
    { searchQuery := sq, timeFilter := getTimeFilter t.timeSlice,
      metadataFilter := filter } index
  if 1 < res.1.length ∧ t.timePoint = true then (dedupNodes res.1, res.2)
  else res

/-- GetNodes (lines 508-539). -/
def Backend.GetNodes (b : Backend) (t : GraphContext)
    (m : Option GraphElementMatcher) : List Node × Backend :=
  let index := match t.timeSlice with
    | none => b.client.indexAlias
    | some _ => ""
  match m with
  | some matcher =>
      match matcher.filterResult with
      | .error _ => ([], b)
      | .ok f => b.getNodesSearch t f index
  | none => b.getNodesSearch t none index

/-- The search-and-dedup tail of `GetEdges` after the matcher check; the
dedup here has no length guard (line 500). -/
def Backend.getEdgesSearch (b : Backend) (t : GraphContext)
    (filter : Option Filter) (index : String) : List Edge × Backend :=
  let sq : SearchQuery :=
    if t.timePoint = false then
      { filter := none, sort := true, sortBy := "UpdatedAt" }
    else {}
  let res := b.searchEdges
    { searchQuery := sq, timeFilter := getTimeFilter t.timeSlice,
      metadataFilter := filter } index
  if t.timePoint = true then (dedupEdges res.1, res.2) else res

/-- GetEdges (lines 474-505). -/
def Backend.GetEdges (b : Backend) (t : GraphContext)
    (m : Option GraphElementMatcher) : List Edge × Backend :=
  let index := match t.timeSlice with
    | none => b.client.indexAlias
    | some _ => ""
  match m with
  | some matcher =>
      match matcher.filterResult with
      | .error _ => ([], b)
      | .ok f => b.getEdgesSearch t f index
  | none => b.getEdgesSearch t none index

/-- The search-and-dedup tail of `GetNodeEdges` after the matcher check. -/
def Backend.getNodeEdgesSearch (b : Backend) (n : Node) (t : GraphContext)
    (filter : Option Filter) (index : String) : List Edge × Backend :=
  let sq0 : SearchQuery :=
    if t.timePoint = false then
      { filter := none, sort := true, sortBy := "UpdatedAt" }
    else {}
  let sq : SearchQuery := { sq0 with filter := some (NewFilterForEdge n.ID n.ID) }
  let res := b.searchEdges
    { searchQuery := sq, timeFilter := getTimeFilter t.timeSlice,
      metadataFilter := filter } index
  if 1 < res.1.length ∧ t.timePoint = true then (dedupEdges res.1, res.2)
  else res

/-- GetNodeEdges (lines 559-590). -/
def Backend.GetNodeEdges (b : Backend) (n : Node) (t : GraphContext)
    (m : Option GraphElementMatcher) : List Edge × Backend :=
  let index := match t.timeSlice with
    | none => b.client.indexAlias
    | some _ => ""
  match m with
  | some matcher =>
      match matcher.filterResult with
      | .error _ => ([], b)
      | .ok f => b.getNodeEdgesSearch n t f index
  | none => b.getNodeEdgesSearch n t none index

/-- NodeDeleted (lines 260-274): remove the id from the tracker, then
stamp `DeletedAt` and `ArchivedAt` with the same deletion time on the
current document. -/
def Backend.NodeDeleted (b : Backend) (n : Node) : Bool × Backend :=
  let b1 : Backend := { b with prevRevision := eraseRev b.prevRevision n.ID }
  let ms := n.deletedAt
  let res := b1.client.bulkUpdateWithPartialDoc "node" (docID n.ID n.revision)
    [("DeletedAt", .int ms), ("ArchivedAt", .int ms)]
  (res.1, { b1 with client := res.2 })

/-- EdgeDeleted (lines 356-369). -/
def Backend.EdgeDeleted (b : Backend) (e : Edge) : Bool × Backend :=
  let b1 : Backend := { b with prevRevision := eraseRev b.prevRevision e.base.ID }
  let ms := e.base.deletedAt
  let res := b1.client.bulkUpdateWithPartialDoc "edge" (docID e.base.ID e.base.revision)
    [("DeletedAt", .int ms), ("ArchivedAt", .int ms)]
  (res.1, { b1 with client := res.2 })

/-- The pre-roll phase of `rollAndDumpTopology` (lines 299-310): fetch all
current nodes and edges, stamp their updated time to now, and archive each
of them, ignoring the archival results exactly as the source does.
Returns the stamped nodes and edges together with the resulting state. -/
def rolloverPrep (now : Int) (b : Backend) :
    (List Node × List Edge) × Backend :=
  let rn := b.GetNodes { timeSlice := none, timePoint := false } none
  let re := rn.2.GetEdges { timeSlice := none, timePoint := false } none
  let nodes := rn.1.map (fun n => { n with updatedAt := now })
  let edges := re.1.map (fun e => { e with base := { e.base with updatedAt := now } })
  let b3 := nodes.foldl (fun acc n => (acc.updateTimes (.node n)).2) re.2
  let b4 := edges.foldl (fun acc e => (acc.updateTimes (.edge e)).2) b3
  ((nodes, edges), b4)

/-- createNode (lines 232-252) abstracted over the rollover it may
trigger: index the document, on store success record the new revision in
the tracker, and run the rollover when the store signals it. -/
def createNodeWith (roll : Backend → Option String × Backend) (b : Backend)
    (n : Node) : Bool × Backend :=
  match b.client.bulkIndex "node" (docID n.ID n.revision) (mapNode n) with
  | (none, c) => (false, { b with client := c })
  | (some shouldRoll, c) =>
      let b1 : Backend :=
        { client := c, prevRevision := insertRev b.prevRevision n.ID n.revision }
      if shouldRoll then
        match roll b1 with
        | (some _, b2) => (false, b2)
        | (none, b2) => (true, b2)
      else (true, b1)

/-- createEdge (lines 328-348) abstracted over the rollover it may
trigger. -/
def createEdgeWith (roll : Backend → Option String × Backend) (b : Backend)
    (e : Edge) : Bool × Backend :=
  match b.client.bulkIndex "edge" (docID e.base.ID e.base.revision) (mapEdge e) with
  | (none, c) => (false, { b with client := c })
  | (some shouldRoll, c) =>
      let b1 : Backend :=
        { client := c,
          prevRevision := insertRev b.prevRevision e.base.ID e.base.revision }
      if shouldRoll then
        match roll b1 with
        | (some _, b2) => (false, b2)
        | (none, b2) => (true, b2)
      else (true, b1)

/-- rollAndDumpTopology (lines 298-326): fetch everything, archive each
fetched element (result ignored), roll the index (the only failure that is
returned), then re-create each fetched element (result ignored); `fuel`
bounds nested rollover recursion and `now` models the clock. -/
def rollAndDumpTopology : Nat → Int → Backend → Option String × Backend
  | 0, _, b => (some "recursion limit", b)
  | fuel + 1, now, b =>
      let p := rolloverPrep now b
      match p.2.client.rollIndex with
      | (false, c) => (some "roll index error", { p.2 with client := c })
      | (true, c) =>
          let b5 : Backend := { p.2 with client := c }
          let b6 := p.1.1.foldl
            (fun acc n =>
              (createNodeWith (fun bb => rollAndDumpTopology fuel now bb) acc n).2) b5
          let b7 := p.1.2.foldl
            (fun acc e =>
              (createEdgeWith (fun bb => rollAndDumpTopology fuel now bb) acc e).2) b6
          (none, b7)

/-- createNode (lines 232-252). -/
def createNode (fuel : Nat) (now : Int) (b : Backend) (n : Node) :
    Bool × Backend :=
  createNodeWith (fun bb => rollAndDumpTopology fuel now bb) b n

/-- createEdge (lines 328-348). -/
def createEdge (fuel : Nat) (now : Int) (b : Backend) (e : Edge) :
    Bool × Backend :=
  createEdgeWith (fun bb => rollAndDumpTopology fuel now bb) b e

/-- NodeAdded (lines 254-257). -/
def NodeAdded (fuel : Nat) (now : Int) (b : Backend) (n : Node) : Bool × Backend :=
  createNode fuel now b n

/-- EdgeAdded (lines 350-353). -/
def EdgeAdded (fuel : Nat) (now : Int) (b : Backend) (e : Edge) : Bool × Backend :=
  createEdge fuel now b e

/-- MetadataUpdated (lines 393-408): archive the prior revision first; on
archival failure return false without the create path. -/
def MetadataUpdated (fuel : Nat) (now : Int) (b : Backend) (i : Element) :
    Bool × Backend :=
  match b.updateTimes i with
  | (false, b1) => (false, b1)
  | (true, b1) =>
      match i with
      | .node n => createNode fuel now b1 n
      | .edge e => createEdge fuel now b1 e

/-- ApplicationPortMap (flow/application.go lines 33-36). -/
structure ApplicationPortMap where
  UDP : List (Int × String)
  TCP : List (Int × String)
deriving DecidableEq, Repr

/-- Go map lookup on a port map. -/
def lookupPort : List (Int × String) → Int → Option String
  | [], _ => none
  | (p, s) :: rest, q => if p = q then some s else lookupPort rest q

/-- application (flow/application.go lines 38-47): the source port mapping
takes precedence over the destination port mapping. -/
def application (srcPort dstPort : Int) (protoMap : List (Int × String)) :
    String × Bool :=
  match lookupPort protoMap srcPort with
  | some app => (app, true)
  | none =>
      match lookupPort protoMap dstPort with
      | some app => (app, true)
      | none => ("", false)

/-- TCPApplication (flow/application.go lines 49-54); the receiver may be
nil, modelled as `none`. -/
def TCPApplication (a : Option ApplicationPortMap) (srcPort dstPort : Int) :
    String × Bool :=
  match a with
  | none => ("", false)
  | some m => application srcPort dstPort m.TCP

/-- UDPApplication (flow/application.go lines 56-61). -/
def UDPApplication (a : Option ApplicationPortMap) (srcPort dstPort : Int) :
    String × Bool :=
  match a with
  | none => ("", false)
  | some m => application srcPort dstPort m.UDP

/-! Auxiliary definitions used by the verification development. -/

/-- Evaluation of an optional filter: an absent filter constrains
nothing. -/
def optEvalDoc (f : Option Filter) (pfx : String) (d : Doc) : Bool :=
  match f with
  | none => true
  | some g => g.evalDoc pfx d

/-- The second backend leaves the tracker, the index generation, and the
roll and bulk-index schedules of the first untouched (archival and search
steps have this shape). -/
def KeepsCore (b b' : Backend) : Prop :=
  b'.prevRevision = b.prevRevision ∧
  b'.client.currentIndex = b.client.currentIndex ∧
  b'.client.rollOutcomes = b.client.rollOutcomes ∧
  b'.client.bulkIndexOutcomes = b.client.bulkIndexOutcomes

/-- The create path of `MetadataUpdated`, dispatching on the element kind
(lines 400-405). -/
def createElement (fuel : Nat) (now : Int) (b : Backend) : Element → Bool × Backend
  | .node n => createNode fuel now b n
  | .edge e => createEdge fuel now b e

/-- An empty client with all-success schedules. -/
def cEmpty : Client :=
  { currentIndex := 0, indexAlias := "live", docs := [],
    bulkIndexOutcomes := [], bulkUpdateOutcomes := [], rollOutcomes := [],
    searchOutcomes := [] }

/-- A sample node, revision 1, updated at t=5. -/
def n1 : Node :=
  { ID := "n1", host := "h", createdAt := 1, updatedAt := 5, deletedAt := 0,
    metadata := [], revision := 1 }

/-- A backend whose tracker has no entry for `n1`. -/
def bMiss : Backend := { client := cEmpty, prevRevision := [] }

/-- A backend whose tracker maps `n1` to prior revision 0. -/
def bHit : Backend := { client := cEmpty, prevRevision := [("n1", 0)] }

/-- The current-only graph context. -/
def ctxNow : GraphContext := { timeSlice := none, timePoint := false }

/-- A matcher whose filter construction fails. -/
def mErr : GraphElementMatcher := ⟨.error "bad matcher"⟩

/-- A sample application port map. -/
def apmS : ApplicationPortMap :=
  { UDP := [(53, "DNS")], TCP := [(80, "HTTP"), (443, "HTTPS")] }

/-- A sample edge, revision 2. -/
def e1 : Edge :=
  { base := { ID := "e1", host := "h", createdAt := 1, updatedAt := 6,
              deletedAt := 0, metadata := [], revision := 2 },
    parent := "n1", child := "n2" }

/-- A client whose single bulk-update outcome is a store error. -/
def cFail : Client := { cEmpty with bulkUpdateOutcomes := [false] }

/-- A backend whose next bulk update fails. -/
def bFail : Backend := { client := cFail, prevRevision := [("n1", 0)] }

/-- A trivial timed search query. -/
def tsq0 : TimedSearchQuery := { searchQuery := {} }

/-- A client whose next search returns one good node hit and one malformed
hit. -/
def cHits : Client :=
  { cEmpty with searchOutcomes := [some [RawSource.node n1, RawSource.malformed]] }

/-- A backend over `cHits`. -/
def bHits : Backend := { client := cHits, prevRevision := [] }

/-- A backend whose next search fails. -/
def bSearchErr : Backend :=
  { client := { cEmpty with searchOutcomes := [none] }, prevRevision := [] }

/-- A sample node with revision 0. -/
def nRev0 : Node :=
  { ID := "n1", host := "h", createdAt := 1, updatedAt := 2, deletedAt := 0,
    metadata := [], revision := 0 }

/-- The time-point graph context with no slice. -/
def ctxPoint : GraphContext := { timeSlice := none, timePoint := true }

/-- A backend whose next search returns two node revisions in ascending
revision order. -/
def bSorted : Backend :=
  { client :=
      { cEmpty with
          searchOutcomes := [some [RawSource.node nRev0, RawSource.node n1]] },
    prevRevision := [] }

/-- A sample edge with revision 0 on the same id as `e1`. -/
def e0 : Edge :=
  { base := { ID := "e1", host := "h", createdAt := 1, updatedAt := 2,
              deletedAt := 0, metadata := [], revision := 0 },
    parent := "n1", child := "n2" }

/-- A backend whose next search returns two edge revisions in ascending
revision order. -/
def bSortedE : Backend :=
  { client :=
      { cEmpty with
          searchOutcomes := [some [RawSource.edge e0, RawSource.edge e1]] },
    prevRevision := [] }

/-- The node that triggers a rollover in the C2 run. -/
def c2N0 : Node :=
  { ID := "n0", host := "h", createdAt := 0, updatedAt := 0, deletedAt := 0,
    metadata := [], revision := 0 }

/-- A node returned by the rollover fetch whose id was never tracked, so
its archival must fail. -/
def nX : Node :=
  { ID := "nX", host := "h", createdAt := 0, updatedAt := 3, deletedAt := 0,
    metadata := [], revision := 7 }

/-- Backend for the C2 run: the first BulkIndex signals a rollover, the
rollover fetch returns the untracked node `nX`, and every later store
operation succeeds. -/
def c2B : Backend :=
  { client :=
      { cEmpty with
          bulkIndexOutcomes := [some true, some false],
          searchOutcomes := [some [RawSource.node nX], some []] },
    prevRevision := [] }

/-- The state at which the C2 rollover starts, right after the triggering
BulkIndex succeeded. -/
def c2Mid : Backend :=
  { client :=
      { cEmpty with
          docs := [((0, "node", "n0-0"), mapNode c2N0)],
          bulkIndexOutcomes := [some false],
          searchOutcomes := [some [RawSource.node nX], some []] },
    prevRevision := [("n0", 0)] }

/-- The state at which the C2 rollover archives the fetched node, after
both fetches consumed their search outcomes. -/
def c2Arch : Backend :=
  { c2Mid with client := { c2Mid.client with searchOutcomes := [] } }

/-- The node written in the C9 run. -/
def c9N : Node :=
  { ID := "n9", host := "h", createdAt := 0, updatedAt := 0, deletedAt := 0,
    metadata := [], revision := 4 }

/-- The edge written in the C9 run. -/
def c9E : Edge :=
  { base := { ID := "e9", host := "h", createdAt := 0, updatedAt := 0,
              deletedAt := 0, metadata := [], revision := 5 },
    parent := "a", child := "b" }

/-- Backend for the C9 run: BulkIndex succeeds and signals a rollover,
and the index roll then fails. -/
def c9B : Backend :=
  { client := { cEmpty with bulkIndexOutcomes := [some true],
                            rollOutcomes := [false] },
    prevRevision := [] }

/-! Association-list and document lemmas. -/

theorem lookupRev_insertRev_self (l : List (Identifier × Int)) (k : Identifier) (r : Int) :
    lookupRev (insertRev l k r) k = some r := by
  induction l with
  | nil => simp [insertRev, lookupRev]
  | cons hd t ih =>
      obtain ⟨k1, r1⟩ := hd
      by_cases hk : k1 = k
      · simp [insertRev, hk, lookupRev]
      · simp [insertRev, hk, lookupRev, ih]

theorem lookupRev_eraseRev_self (l : List (Identifier × Int)) (k : Identifier) :
    lookupRev (eraseRev l k) k = none := by
  induction l with
  | nil => simp [eraseRev, lookupRev]
  | cons hd t ih =>
      obtain ⟨k1, r1⟩ := hd
      by_cases hk : k1 = k
      · simp [eraseRev, hk, ih]
      · simp [eraseRev, hk, lookupRev, ih]

theorem lookupField_setField_self (d : Doc) (key : String) (v : Value) :
    lookupField (setField d key v) key = some v := by
  induction d with
  | nil => simp [setField, lookupField]
  | cons hd t ih =>
      obtain ⟨k1, v1⟩ := hd
      by_cases hk : k1 = key
      · simp [setField, hk, lookupField]
      · simp [setField, hk, lookupField, ih]

theorem lookupField_setField_ne (d : Doc) (key key' : String) (v : Value)
    (h : key' ≠ key) :
    lookupField (setField d key v) key' = lookupField d key' := by
  induction d with
  | nil =>
      simp only [setField, lookupField]
      rw [if_neg (fun hc => h hc.symm)]
  | cons hd t ih =>
      obtain ⟨k1, v1⟩ := hd
      by_cases hk : k1 = key
      · subst hk
        simp only [setField, if_pos rfl, lookupField]
        rw [if_neg (fun hc => h hc.symm), if_neg (fun hc => h hc.symm)]
      · simp only [setField, if_neg hk, lookupField]
        by_cases hk' : k1 = key'
        · rw [if_pos hk', if_pos hk']
        · rw [if_neg hk', if_neg hk']
          exact ih

theorem mergeDoc_single (d : Doc) (key : String) (v : Value) :
    mergeDoc d [(key, v)] = setField d key v := rfl

theorem docsLookup_docsInsert_self (ds : List (DocKey × Doc)) (k : DocKey) (d : Doc) :
    docsLookup (docsInsert ds k d) k = some d := by
  induction ds with
  | nil => simp [docsInsert, docsLookup]
  | cons hd t ih =>
      obtain ⟨k1, d1⟩ := hd
      by_cases hk : k1 = k
      · simp [docsInsert, hk, docsLookup]
      · simp [docsInsert, hk, docsLookup, ih]

theorem docsLookup_docsInsert_ne (ds : List (DocKey × Doc)) (k k' : DocKey) (d : Doc)
    (h : k' ≠ k) :
    docsLookup (docsInsert ds k d) k' = docsLookup ds k' := by
  induction ds with
  | nil =>
      simp only [docsInsert, docsLookup]
      rw [if_neg (fun hc => h hc.symm)]
  | cons hd t ih =>
      obtain ⟨k1, d1⟩ := hd
      by_cases hk : k1 = k
      · subst hk
        simp only [docsInsert, if_pos rfl, docsLookup]
        rw [if_neg (fun hc => h hc.symm), if_neg (fun hc => h hc.symm)]
      · simp only [docsInsert, if_neg hk, docsLookup]
        by_cases hk' : k1 = k'
        · rw [if_pos hk', if_pos hk']
        · rw [if_neg hk', if_neg hk']
          exact ih

theorem docsMerge_single_field (ds : List (DocKey × Doc)) (k : DocKey)
    (key : String) (v : Value) :
    ∃ d, docsLookup (docsMerge ds k [(key, v)]) k = some d ∧
      lookupField d key = some v := by
  induction ds with
  | nil => exact ⟨[(key, v)], by simp [docsMerge, docsLookup, lookupField]⟩
  | cons hd t ih =>
      obtain ⟨k1, d1⟩ := hd
      by_cases hk : k1 = k
      · refine ⟨mergeDoc d1 [(key, v)], ?_, ?_⟩
        · simp [docsMerge, hk, docsLookup]
        · rw [mergeDoc_single]
          exact lookupField_setField_self d1 key v
      · obtain ⟨d, hd, hf⟩ := ih
        exact ⟨d, by simp [docsMerge, hk, docsLookup, hd], hf⟩

theorem docsLookup_docsMerge_ne (ds : List (DocKey × Doc)) (k k' : DocKey) (p : Doc)
    (h : k' ≠ k) :
    docsLookup (docsMerge ds k p) k' = docsLookup ds k' := by
  induction ds with
  | nil =>
      simp only [docsMerge, docsLookup]
      rw [if_neg (fun hc => h hc.symm)]
  | cons hd t ih =>
      obtain ⟨k1, d1⟩ := hd
      by_cases hk : k1 = k
      · subst hk
        simp only [docsMerge, if_pos rfl, docsLookup]
        rw [if_neg (fun hc => h hc.symm), if_neg (fun hc => h hc.symm)]
      · simp only [docsMerge, if_neg hk, docsLookup]
        by_cases hk' : k1 = k'
        · rw [if_pos hk', if_pos hk']
        · rw [if_neg hk', if_neg hk']
          exact ih

theorem lookupField_mapElement_archivedAt (e : GraphElement) :
    lookupField (mapElement e) "ArchivedAt" = none := by
  unfold mapElement
  split
  · simp [lookupField]
  · rw [lookupField_setField_ne _ _ _ _ (by decide)]
    simp [lookupField]

theorem lookupField_mapped_archivedAt (i : Element) :
    lookupField i.mapped "ArchivedAt" = none := by
  cases i with
  | node n => exact lookupField_mapElement_archivedAt n
  | edge e =>
      show lookupField (mapEdge e) "ArchivedAt" = none
      unfold mapEdge
      rw [lookupField_setField_ne _ _ _ _ (by decide),
          lookupField_setField_ne _ _ _ _ (by decide)]
      exact lookupField_mapElement_archivedAt e.base

/-! Claim theorems. -/

/-- C6: `updateTimes` on an element whose id has no tracker entry aborts
with `false` and no store write; when the entry exists, the partial update
targets document id `<ID>-<prior revision>` and sets `ArchivedAt` to the
element's updated timestamp. -/
theorem claim6_updateTimes (b : Backend) (i : Element) :
    (lookupRev b.prevRevision i.eID = none → b.updateTimes i = (false, b))
  ∧ (∀ r, lookupRev b.prevRevision i.eID = some r →
      b.updateTimes i =
        ((b.client.bulkUpdateWithPartialDoc i.kind (docID i.eID r)
            [("ArchivedAt", Value.int i.updatedMillis)]).1,
         { b with client := (b.client.bulkUpdateWithPartialDoc i.kind (docID i.eID r)
            [("ArchivedAt", Value.int i.updatedMillis)]).2 }))
  ∧ (∀ r, lookupRev b.prevRevision i.eID = some r → (b.updateTimes i).1 = true →
      ∃ d, docsLookup ((b.updateTimes i).2).client.docs
            (b.client.currentIndex, i.kind, docID i.eID r) = some d ∧
        lookupField d "ArchivedAt" = some (Value.int i.updatedMillis)) := by
  refine ⟨fun h => by simp [Backend.updateTimes, h], fun r hr => by simp [Backend.updateTimes, hr],
    fun r hr hok => ?_⟩
  simp only [Backend.updateTimes, hr] at hok ⊢
  unfold Client.bulkUpdateWithPartialDoc at hok ⊢
  by_cases hu : b.client.bulkUpdateOutcomes.headD true = true
  · rw [if_pos hu]
    exact docsMerge_single_field _ _ _ _
  · rw [if_neg hu] at hok
    simp at hok

/-- C6 witness: a tracker miss aborts unchanged; a tracker hit archives
document `n1-0`. -/
theorem claim6_witness :
    Backend.updateTimes bMiss (Element.node n1) = (false, bMiss) ∧
    (∃ d, docsLookup ((Backend.updateTimes bHit (Element.node n1)).2).client.docs
        (bHit.client.currentIndex, (Element.node n1).kind,
          docID (Element.node n1).eID 0) = some d ∧
      lookupField d "ArchivedAt" = some (Value.int (Element.node n1).updatedMillis)) :=
  ⟨(claim6_updateTimes bMiss (Element.node n1)).1 rfl,
   (claim6_updateTimes bHit (Element.node n1)).2.2 0 rfl rfl⟩

/-- C7: the query built by `Query` is the AND of the formatted time,
identity and metadata filters; absent filters are omitted from the clause
list rather than contributing a clause, and with all three absent the
query has no clauses and matches every document. -/
theorem claim7_query_composition (tf idf mf : Option Filter) (sq0 : SearchQuery)
    (d : Doc) :
    ((mustQuery
          { searchQuery := { sq0 with filter := idf },
            timeFilter := tf,
            metadataFilter := mf }).clauses
      = (FormatFilter tf "").toList ++ (FormatFilter idf "").toList ++
        (FormatFilter mf "Metadata").toList)
  ∧ ((mustQuery
          { searchQuery := { sq0 with filter := idf },
            timeFilter := tf,
            metadataFilter := mf }).matchesDoc d
      = (optEvalDoc tf "" d && optEvalDoc idf "" d && optEvalDoc mf "Metadata" d))
  ∧ ((mustQuery
          { searchQuery := { sq0 with filter := none },
            timeFilter := none,
            metadataFilter := none }).clauses = [])
  ∧ ((mustQuery
          { searchQuery := { sq0 with filter := none },
            timeFilter := none,
            metadataFilter := none }).matchesDoc d = true) := by
  refine ⟨?_, ?_, ?_, ?_⟩
  · cases tf <;> cases idf <;> cases mf <;> simp [mustQuery, FormatFilter]
  · cases tf <;> cases idf <;> cases mf <;>
      simp [mustQuery, FormatFilter, ESQuery.matchesDoc, optEvalDoc, Bool.and_assoc]
  · simp [mustQuery, FormatFilter]
  · simp [mustQuery, FormatFilter, ESQuery.matchesDoc]

/-- C8: a bulk query whose metadata matcher fails to build a filter
returns an empty result with no error and performs no store search (the
backend, including every outcome schedule, is unchanged). -/
theorem claim8_matcher_error (b : Backend) (t : GraphContext)
    (m : GraphElementMatcher) (n : Node) (err : String)
    (h : m.filterResult = Except.error err) :
    b.GetNodes t (some m) = ([], b)
  ∧ b.GetEdges t (some m) = ([], b)
  ∧ b.GetNodeEdges n t (some m) = ([], b) := by
  refine ⟨?_, ?_, ?_⟩ <;>
    simp [Backend.GetNodes, Backend.GetEdges, Backend.GetNodeEdges, h]

/-- C8 witness: the failing matcher short-circuits all three bulk
queries on a concrete backend. -/
theorem claim8_witness :
    bHit.GetNodes ctxNow (some mErr) = ([], bHit)
  ∧ bHit.GetEdges ctxNow (some mErr) = ([], bHit)
  ∧ bHit.GetNodeEdges n1 ctxNow (some mErr) = ([], bHit) :=
  claim8_matcher_error bHit ctxNow mErr n1 "bad matcher" rfl

/-- C10: `TCPApplication`/`UDPApplication` on a nil receiver return the
empty string and false; on a non-nil receiver a source-port mapping takes
precedence over a destination-port mapping when both are present. -/
theorem claim10_application (s t : Int) (m : ApplicationPortMap)
    (app app2 : String) :
    TCPApplication none s t = ("", false)
  ∧ UDPApplication none s t = ("", false)
  ∧ (lookupPort m.TCP s = some app → lookupPort m.TCP t = some app2 →
      TCPApplication (some m) s t = (app, true))
  ∧ (lookupPort m.UDP s = some app → lookupPort m.UDP t = some app2 →
      UDPApplication (some m) s t = (app, true)) := by
  refine ⟨rfl, rfl, fun h1 _ => ?_, fun h1 _ => ?_⟩ <;>
    simp [TCPApplication, UDPApplication, application, h1]

/-- C10 witness: nil receivers are safe and port 80 beats port 443 on a
concrete map. -/
theorem claim10_witness :
    TCPApplication none 1 2 = ("", false)
  ∧ UDPApplication none 1 2 = ("", false)
  ∧ TCPApplication (some apmS) 80 443 = ("HTTP", true)
  ∧ UDPApplication (some apmS) 53 53 = ("DNS", true) :=
  ⟨(claim10_application 1 2 apmS "" "").1,
   (claim10_application 1 2 apmS "" "").2.1,
   (claim10_application 80 443 apmS "HTTP" "HTTPS").2.2.1 rfl rfl,
   (claim10_application 53 53 apmS "DNS" "DNS").2.2.2 rfl rfl⟩

theorem docsMerge_pair_field (ds : List (DocKey × Doc)) (k : DocKey)
    (k1 k2 : String) (v1 v2 : Value) (hne : k1 ≠ k2) :
    ∃ d, docsLookup (docsMerge ds k [(k1, v1), (k2, v2)]) k = some d ∧
      lookupField d k1 = some v1 ∧ lookupField d k2 = some v2 := by
  have hfields : ∀ d0 : Doc,
      lookupField (setField (setField d0 k1 v1) k2 v2) k1 = some v1 ∧
      lookupField (setField (setField d0 k1 v1) k2 v2) k2 = some v2 := by
    intro d0
    constructor
    · rw [lookupField_setField_ne _ _ _ _ hne]
      exact lookupField_setField_self d0 k1 v1
    · exact lookupField_setField_self _ k2 v2
  induction ds with
  | nil =>
      refine ⟨[(k1, v1), (k2, v2)], by simp [docsMerge, docsLookup], ?_, ?_⟩
      · simp [lookupField]
      · simp only [lookupField]
        rw [if_neg hne]
        simp
  | cons hd t ih =>
      obtain ⟨kk, dd⟩ := hd
      by_cases hk : kk = k
      · refine ⟨mergeDoc dd [(k1, v1), (k2, v2)], ?_, ?_⟩
        · simp [docsMerge, hk, docsLookup]
        · show lookupField (setField (setField dd k1 v1) k2 v2) k1 = some v1 ∧ _
          exact hfields dd
      · obtain ⟨d, hd', hf⟩ := ih
        exact ⟨d, by simp [docsMerge, hk, docsLookup, hd'], hf⟩

/-- C4: deletion removes the id from the tracker unconditionally (it is
not rolled back on store failure), and the partial update targets only
document `<ID>-<current revision>`, setting `DeletedAt` and `ArchivedAt`
to the identical deletion timestamp. -/
theorem claim4_deletion (b : Backend) (n : Node) (e : Edge) :
    (lookupRev ((b.NodeDeleted n).2).prevRevision n.ID = none
      ∧ ((b.NodeDeleted n).1 = false →
          ((b.NodeDeleted n).2).client.docs = b.client.docs)
      ∧ ((b.NodeDeleted n).1 = true →
          ∃ d, docsLookup ((b.NodeDeleted n).2).client.docs
              (b.client.currentIndex, "node", docID n.ID n.revision) = some d ∧
            lookupField d "DeletedAt" = some (Value.int n.deletedAt) ∧
            lookupField d "ArchivedAt" = some (Value.int n.deletedAt))
      ∧ ((b.NodeDeleted n).1 = true → ∀ k,
          k ≠ (b.client.currentIndex, "node", docID n.ID n.revision) →
          docsLookup ((b.NodeDeleted n).2).client.docs k =
            docsLookup b.client.docs k))
  ∧ (lookupRev ((b.EdgeDeleted e).2).prevRevision e.base.ID = none
      ∧ ((b.EdgeDeleted e).1 = false →
          ((b.EdgeDeleted e).2).client.docs = b.client.docs)
      ∧ ((b.EdgeDeleted e).1 = true →
          ∃ d, docsLookup ((b.EdgeDeleted e).2).client.docs
              (b.client.currentIndex, "edge", docID e.base.ID e.base.revision)
                = some d ∧
            lookupField d "DeletedAt" = some (Value.int e.base.deletedAt) ∧
            lookupField d "ArchivedAt" = some (Value.int e.base.deletedAt))
      ∧ ((b.EdgeDeleted e).1 = true → ∀ k,
          k ≠ (b.client.currentIndex, "edge", docID e.base.ID e.base.revision) →
          docsLookup ((b.EdgeDeleted e).2).client.docs k =
            docsLookup b.client.docs k)) := by
  constructor
  · refine ⟨?_, ?_, ?_, ?_⟩
    · simp only [Backend.NodeDeleted]
      exact lookupRev_eraseRev_self _ _
    · intro hf
      simp only [Backend.NodeDeleted, Client.bulkUpdateWithPartialDoc] at hf ⊢
      by_cases hu : b.client.bulkUpdateOutcomes.headD true = true
      · rw [if_pos hu] at hf
        simp at hf
      · rw [if_neg hu]
    · intro ht
      simp only [Backend.NodeDeleted, Client.bulkUpdateWithPartialDoc] at ht ⊢
      by_cases hu : b.client.bulkUpdateOutcomes.headD true = true
      · rw [if_pos hu]
        exact docsMerge_pair_field _ _ _ _ _ _ (by decide)
      · rw [if_neg hu] at ht
        simp at ht
    · intro ht k hk
      simp only [Backend.NodeDeleted, Client.bulkUpdateWithPartialDoc] at ht ⊢
      by_cases hu : b.client.bulkUpdateOutcomes.headD true = true
      · rw [if_pos hu]
        exact docsLookup_docsMerge_ne _ _ _ _ hk
      · rw [if_neg hu] at ht
        simp at ht
  · refine ⟨?_, ?_, ?_, ?_⟩
    · simp only [Backend.EdgeDeleted]
      exact lookupRev_eraseRev_self _ _
    · intro hf
      simp only [Backend.EdgeDeleted, Client.bulkUpdateWithPartialDoc] at hf ⊢
      by_cases hu : b.client.bulkUpdateOutcomes.headD true = true
      · rw [if_pos hu] at hf
        simp at hf
      · rw [if_neg hu]
    · intro ht
      simp only [Backend.EdgeDeleted, Client.bulkUpdateWithPartialDoc] at ht ⊢
      by_cases hu : b.client.bulkUpdateOutcomes.headD true = true
      · rw [if_pos hu]
        exact docsMerge_pair_field _ _ _ _ _ _ (by decide)
      · rw [if_neg hu] at ht
        simp at ht
    · intro ht k hk
      simp only [Backend.EdgeDeleted, Client.bulkUpdateWithPartialDoc] at ht ⊢
      by_cases hu : b.client.bulkUpdateOutcomes.headD true = true
      · rw [if_pos hu]
        exact docsLookup_docsMerge_ne _ _ _ _ hk
      · rw [if_neg hu] at ht
        simp at ht

/-- C4 witness: a successful deletion stamps `n1-1` with equal timestamps,
and a failing store write still leaves the tracker without the id. -/
theorem claim4_witness :
    (∃ d, docsLookup ((bHit.NodeDeleted n1).2).client.docs
        (bHit.client.currentIndex, "node", docID n1.ID n1.revision) = some d ∧
      lookupField d "DeletedAt" = some (Value.int n1.deletedAt) ∧
      lookupField d "ArchivedAt" = some (Value.int n1.deletedAt))
  ∧ ((bFail.NodeDeleted n1).2).client.docs = bFail.client.docs
  ∧ lookupRev ((bFail.NodeDeleted n1).2).prevRevision n1.ID = none
  ∧ (∃ d, docsLookup ((bHit.EdgeDeleted e1).2).client.docs
        (bHit.client.currentIndex, "edge", docID e1.base.ID e1.base.revision)
          = some d ∧
      lookupField d "DeletedAt" = some (Value.int e1.base.deletedAt) ∧
      lookupField d "ArchivedAt" = some (Value.int e1.base.deletedAt)) :=
  ⟨(claim4_deletion bHit n1 e1).1.2.2.1 rfl,
   (claim4_deletion bFail n1 e1).1.2.1 rfl,
   (claim4_deletion bFail n1 e1).1.1,
   (claim4_deletion bHit n1 e1).2.2.2.1 rfl⟩

/-- C3 counterexample: with one good hit and one malformed hit, the code
returns two elements, the zero node standing in for the malformed hit,
instead of excluding it as the claim states. -/
theorem claim3_counterexample :
    (bHits.searchNodes tsq0 "").1 = [n1, zeroNode]
  ∧ (bHits.searchNodes tsq0 "").1 ≠ [n1]
  ∧ hitToNode RawSource.malformed = Except.error () := by
  refine ⟨rfl, by decide, rfl⟩

/-- C3 amended: a hit that fails to decode is not excluded: the zero
value is appended in its place, every hit contributes exactly one element
(other hits decode normally), and only a failure of the whole query
empties the result. -/
theorem claim3_decode_tolerance (b : Backend) (tsq : TimedSearchQuery)
    (index : String) :
    (∀ hits, nextSearchOutcome b.client = some hits →
        (b.searchNodes tsq index).1 = hits.map decodeNode
      ∧ ((b.searchNodes tsq index).1).length = hits.length)
  ∧ (nextSearchOutcome b.client = none → (b.searchNodes tsq index).1 = [])
  ∧ (∀ hits, nextSearchOutcome b.client = some hits →
        (b.searchEdges tsq index).1 = hits.map decodeEdge
      ∧ ((b.searchEdges tsq index).1).length = hits.length)
  ∧ (nextSearchOutcome b.client = none → (b.searchEdges tsq index).1 = [])
  ∧ (∀ n, decodeNode (RawSource.node n) = n)
  ∧ decodeNode RawSource.malformed = zeroNode
  ∧ (∀ e, decodeEdge (RawSource.edge e) = e)
  ∧ decodeEdge RawSource.malformed = zeroEdge := by
  refine ⟨fun hits hh => ?_, fun hh => ?_, fun hits hh => ?_, fun hh => ?_,
    fun n => rfl, rfl, fun e => rfl, rfl⟩ <;>
    simp [Backend.searchNodes, Backend.searchEdges, Backend.query,
      Client.search, hh]

/-- C3 amended witness: the concrete mixed hit list maps to its decoded
forms, and a failed search yields the empty list. -/
theorem claim3_witness :
    ((bHits.searchNodes tsq0 "").1
        = [RawSource.node n1, RawSource.malformed].map decodeNode
      ∧ ((bHits.searchNodes tsq0 "").1).length = 2)
  ∧ (bSearchErr.searchNodes tsq0 "").1 = [] :=
  ⟨(claim3_decode_tolerance bHits tsq0 "").1
      [RawSource.node n1, RawSource.malformed] rfl,
   (claim3_decode_tolerance bSearchErr tsq0 "").2.1 rfl⟩

theorem pairwise_le_getLast {α : Type} (g : α → Int) :
    ∀ (l : List α) (hl : l ≠ []), l.Pairwise (fun a c => g a ≤ g c) →
      ∀ x ∈ l, g x ≤ g (l.getLast hl) := by
  intro l
  induction l with
  | nil => exact fun hl => absurd rfl hl
  | cons a t ih =>
      intro hl hp x hx
      cases t with
      | nil =>
          have hxa : x = a := by simpa using hx
          subst hxa
          exact le_of_eq rfl
      | cons bb u =>
          have hne2 : bb :: u ≠ [] := by simp
          have hlast : (a :: bb :: u).getLast hl = (bb :: u).getLast hne2 := rfl
          rw [hlast]
          rcases List.mem_cons.mp hx with rfl | hx2
          · exact (List.pairwise_cons.mp hp).1 _ (List.getLast_mem hne2)
          · exact ih hne2 (List.pairwise_cons.mp hp).2 x hx2

/-- C5: a single-id time-point query whose (revision-ascending sorted)
hit list has more than one document returns exactly the last hit, which
has the numerically greatest revision, so each id appears at most once. -/
theorem claim5_timepoint :
    (∀ (b : Backend) (i : Identifier) (t : GraphContext) (ns : List Node),
        t.timePoint = true →
        nextSearchOutcome b.client = some (ns.map RawSource.node) →
        ns.Pairwise (fun a c => a.revision ≤ c.revision) →
        1 < ns.length →
        ∃ m, (b.GetNode i t).1 = [m] ∧ m ∈ ns ∧
          (∀ x ∈ ns, x.revision ≤ m.revision) ∧
          ((b.GetNode i t).1).length ≤ 1)
  ∧ (∀ (b : Backend) (i : Identifier) (t : GraphContext) (es : List Edge),
        t.timePoint = true →
        nextSearchOutcome b.client = some (es.map RawSource.edge) →
        es.Pairwise (fun a c => a.base.revision ≤ c.base.revision) →
        1 < es.length →
        ∃ m, (b.GetEdge i t).1 = [m] ∧ m ∈ es ∧
          (∀ x ∈ es, x.base.revision ≤ m.base.revision) ∧
          ((b.GetEdge i t).1).length ≤ 1) := by
  constructor
  · intro b i t ns hp hh hsort hlen
    have hne : ns ≠ [] := by
      intro hcon
      rw [hcon] at hlen
      simp at hlen
    have hone : ∀ a : Node, decodeNode (RawSource.node a) = a := fun _ => rfl
    have hdec : ∀ l : List Node, (l.map RawSource.node).map decodeNode = l := by
      intro l
      induction l with
      | nil => rfl
      | cons a u ihl => simp [hone, ihl]
    have hsr : (b.searchNodes
        { searchQuery :=
            { filter := some (NewTermStringFilter "ID" i), sort := true,
              sortBy := "Revision" },
          timeFilter := getTimeFilter t.timeSlice }
        (match t.timeSlice with
          | none => b.client.indexAlias
          | some _ => "")).1 = ns := by
      simp [Backend.searchNodes, Backend.query, Client.search, hh, hdec]
    have hres : (b.GetNode i t).1 = [ns.getLast hne] := by
      simp only [Backend.GetNode, hsr]
      rw [if_pos ⟨hlen, hp⟩, List.getLast?_eq_getLast _ hne]
      rfl
    refine ⟨ns.getLast hne, hres, List.getLast_mem hne, ?_, by rw [hres]; simp⟩
    exact pairwise_le_getLast (fun x => x.revision) ns hne hsort
  · intro b i t es hp hh hsort hlen
    have hne : es ≠ [] := by
      intro hcon
      rw [hcon] at hlen
      simp at hlen
    have hone : ∀ a : Edge, decodeEdge (RawSource.edge a) = a := fun _ => rfl
    have hdec : ∀ l : List Edge, (l.map RawSource.edge).map decodeEdge = l := by
      intro l
      induction l with
      | nil => rfl
      | cons a u ihl => simp [hone, ihl]
    have hsr : (b.searchEdges
        { searchQuery :=
            { filter := some (NewTermStringFilter "ID" i), sort := true,
              sortBy := "Revision" },
          timeFilter := getTimeFilter t.timeSlice }
        (match t.timeSlice with
          | none => b.client.indexAlias
          | some _ => "")).1 = es := by
      simp [Backend.searchEdges, Backend.query, Client.search, hh, hdec]
    have hres : (b.GetEdge i t).1 = [es.getLast hne] := by
      simp only [Backend.GetEdge, hsr]
      rw [if_pos ⟨hlen, hp⟩, List.getLast?_eq_getLast _ hne]
      rfl
    refine ⟨es.getLast hne, hres, List.getLast_mem hne, ?_, by rw [hres]; simp⟩
    exact pairwise_le_getLast (fun x => x.base.revision) es hne hsort

/-- C5 witness: on two ascending revisions of one id, the time-point
lookup returns exactly the revision-1 document. -/
theorem claim5_witness :
    (∃ m, (bSorted.GetNode "n1" ctxPoint).1 = [m] ∧ m ∈ [nRev0, n1] ∧
      (∀ x ∈ [nRev0, n1], x.revision ≤ m.revision) ∧
      ((bSorted.GetNode "n1" ctxPoint).1).length ≤ 1)
  ∧ (∃ m, (bSortedE.GetEdge "e1" ctxPoint).1 = [m] ∧ m ∈ [e0, e1] ∧
      (∀ x ∈ [e0, e1], x.base.revision ≤ m.base.revision) ∧
      ((bSortedE.GetEdge "e1" ctxPoint).1).length ≤ 1) :=
  ⟨claim5_timepoint.1 bSorted "n1" ctxPoint [nRev0, n1] rfl rfl
      (by decide) (by decide),
   claim5_timepoint.2 bSortedE "e1" ctxPoint [e0, e1] rfl rfl
      (by decide) (by decide)⟩

/-! Preservation lemmas for the rollover control flow. -/

theorem keepsCore_refl (b : Backend) : KeepsCore b b := ⟨rfl, rfl, rfl, rfl⟩

theorem keepsCore_trans {a b c : Backend} (h1 : KeepsCore a b)
    (h2 : KeepsCore b c) : KeepsCore a c :=
  ⟨h2.1.trans h1.1, h2.2.1.trans h1.2.1, h2.2.2.1.trans h1.2.2.1,
   h2.2.2.2.trans h1.2.2.2⟩

theorem updateTimes_keepsCore (b : Backend) (i : Element) :
    KeepsCore b (b.updateTimes i).2 := by
  cases hl : lookupRev b.prevRevision i.eID with
  | none =>
      simp only [Backend.updateTimes, hl]
      exact keepsCore_refl b
  | some r =>
      simp only [Backend.updateTimes, hl, Client.bulkUpdateWithPartialDoc]
      by_cases hu : b.client.bulkUpdateOutcomes.headD true = true
      · rw [if_pos hu]
        exact ⟨rfl, rfl, rfl, rfl⟩
      · rw [if_neg hu]
        exact ⟨rfl, rfl, rfl, rfl⟩

theorem searchNodes_keepsCore (b : Backend) (tsq : TimedSearchQuery)
    (index : String) : KeepsCore b (b.searchNodes tsq index).2 := by
  cases hs : nextSearchOutcome b.client with
  | none =>
      simp only [Backend.searchNodes, Backend.query, Client.search, hs]
      exact ⟨rfl, rfl, rfl, rfl⟩
  | some hits =>
      simp only [Backend.searchNodes, Backend.query, Client.search, hs]
      exact ⟨rfl, rfl, rfl, rfl⟩

theorem searchEdges_keepsCore (b : Backend) (tsq : TimedSearchQuery)
    (index : String) : KeepsCore b (b.searchEdges tsq index).2 := by
  cases hs : nextSearchOutcome b.client with
  | none =>
      simp only [Backend.searchEdges, Backend.query, Client.search, hs]
      exact ⟨rfl, rfl, rfl, rfl⟩
  | some hits =>
      simp only [Backend.searchEdges, Backend.query, Client.search, hs]
      exact ⟨rfl, rfl, rfl, rfl⟩

theorem getNodesSearch_keepsCore (b : Backend) (t : GraphContext)
    (f : Option Filter) (index : String) :
    KeepsCore b (b.getNodesSearch t f index).2 := by
  simp only [Backend.getNodesSearch]
  split <;> split <;> exact searchNodes_keepsCore _ _ _

theorem getEdgesSearch_keepsCore (b : Backend) (t : GraphContext)
    (f : Option Filter) (index : String) :
    KeepsCore b (b.getEdgesSearch t f index).2 := by
  simp only [Backend.getEdgesSearch]
  split <;> split <;> exact searchEdges_keepsCore _ _ _

theorem getNodes_keepsCore (b : Backend) (t : GraphContext)
    (m : Option GraphElementMatcher) : KeepsCore b (b.GetNodes t m).2 := by
  cases m with
  | none =>
      simp only [Backend.GetNodes]
      exact getNodesSearch_keepsCore _ _ _ _
  | some matcher =>
      cases hm : matcher.filterResult with
      | error msg =>
          simp only [Backend.GetNodes, hm]
          exact keepsCore_refl b
      | ok f =>
          simp only [Backend.GetNodes, hm]
          exact getNodesSearch_keepsCore _ _ _ _

theorem getEdges_keepsCore (b : Backend) (t : GraphContext)
    (m : Option GraphElementMatcher) : KeepsCore b (b.GetEdges t m).2 := by
  cases m with
  | none =>
      simp only [Backend.GetEdges]
      exact getEdgesSearch_keepsCore _ _ _ _
  | some matcher =>
      cases hm : matcher.filterResult with
      | error msg =>
          simp only [Backend.GetEdges, hm]
          exact keepsCore_refl b
      | ok f =>
          simp only [Backend.GetEdges, hm]
          exact getEdgesSearch_keepsCore _ _ _ _

theorem foldl_keepsCore {α : Type} (f : Backend → α → Backend)
    (hf : ∀ b x, KeepsCore b (f b x)) :
    ∀ (l : List α) (b : Backend), KeepsCore b (l.foldl f b) := by
  intro l
  induction l with
  | nil => exact fun b => keepsCore_refl b
  | cons a t ih => exact fun b => keepsCore_trans (hf b a) (ih (f b a))

theorem rolloverPrep_keepsCore (now : Int) (b : Backend) :
    KeepsCore b (rolloverPrep now b).2 := by
  simp only [rolloverPrep]
  have h1 := getNodes_keepsCore b { timeSlice := none, timePoint := false } none
  have h2 := getEdges_keepsCore
    (b.GetNodes { timeSlice := none, timePoint := false } none).2
    { timeSlice := none, timePoint := false } none
  exact keepsCore_trans (keepsCore_trans h1 h2)
    (keepsCore_trans
      (foldl_keepsCore _ (fun bb x => updateTimes_keepsCore bb (Element.node x)) _ _)
      (foldl_keepsCore _ (fun bb x => updateTimes_keepsCore bb (Element.edge x)) _ _))

theorem rollAndDumpTopology_succ_none_iff (fuel : Nat) (now : Int) (b : Backend) :
    ((rollAndDumpTopology (fuel + 1) now b).1 = none ↔
      b.client.rollOutcomes.headD true = true) := by
  have hroll : (rolloverPrep now b).2.client.rollOutcomes = b.client.rollOutcomes :=
    (rolloverPrep_keepsCore now b).2.2.1
  simp only [rollAndDumpTopology, Client.rollIndex, hroll]
  by_cases hr : b.client.rollOutcomes.headD true = true
  · rw [if_pos hr]
    simpa using hr
  · rw [if_neg hr]
    simpa using hr

theorem rollAndDumpTopology_fail_prevRevision (fuel : Nat) (now : Int)
    (b : Backend) (msg : String) (b2 : Backend)
    (h : rollAndDumpTopology fuel now b = (some msg, b2)) :
    b2.prevRevision = b.prevRevision := by
  cases fuel with
  | zero =>
      simp only [rollAndDumpTopology] at h
      injection h with h1 h2
      rw [← h2]
  | succ fuel =>
      have hk := rolloverPrep_keepsCore now b
      simp only [rollAndDumpTopology, Client.rollIndex] at h
      by_cases hr : (rolloverPrep now b).2.client.rollOutcomes.headD true = true
      · rw [if_pos hr] at h
        injection h with h1 h2
        cases h1
      · rw [if_neg hr] at h
        injection h with h1 h2
        rw [← h2]
        exact hk.1

theorem createNodeWith_false_iff (roll : Backend → Option String × Backend)
    (b : Backend) (n : Node)
    (hspec : ∀ bb : Backend,
      ((roll bb).1 = none ↔ bb.client.rollOutcomes.headD true = true)) :
    ((createNodeWith roll b n).1 = false ↔
      (nextBulkIndexOutcome b.client = none ∨
        (nextBulkIndexOutcome b.client = some true ∧
          b.client.rollOutcomes.headD true = false))) := by
  cases hN : nextBulkIndexOutcome b.client with
  | none =>
      simp only [createNodeWith, Client.bulkIndex, hN]
      simp [hN]
  | some roll2 =>
      cases roll2 with
      | false =>
          simp only [createNodeWith, Client.bulkIndex, hN]
          simp [hN]
      | true =>
          simp only [createNodeWith, Client.bulkIndex, hN]
          rw [if_pos trivial]
          have hiff := hspec
            ⟨{ b.client with
                docs := docsInsert b.client.docs
                  (b.client.currentIndex, "node", docID n.ID n.revision)
                  (mapNode n),
                bulkIndexOutcomes := b.client.bulkIndexOutcomes.tail },
              insertRev b.prevRevision n.ID n.revision⟩
          split
          · rename_i b2 val heq
            rw [heq] at hiff
            simp at hiff ⊢
            exact hiff
          · rename_i b2 heq
            rw [heq] at hiff
            simp at hiff ⊢
            simp [hiff]

theorem createEdgeWith_false_iff (roll : Backend → Option String × Backend)
    (b : Backend) (e : Edge)
    (hspec : ∀ bb : Backend,
      ((roll bb).1 = none ↔ bb.client.rollOutcomes.headD true = true)) :
    ((createEdgeWith roll b e).1 = false ↔
      (nextBulkIndexOutcome b.client = none ∨
        (nextBulkIndexOutcome b.client = some true ∧
          b.client.rollOutcomes.headD true = false))) := by
  cases hN : nextBulkIndexOutcome b.client with
  | none =>
      simp only [createEdgeWith, Client.bulkIndex, hN]
      simp [hN]
  | some roll2 =>
      cases roll2 with
      | false =>
          simp only [createEdgeWith, Client.bulkIndex, hN]
          simp [hN]
      | true =>
          simp only [createEdgeWith, Client.bulkIndex, hN]
          rw [if_pos trivial]
          have hiff := hspec
            ⟨{ b.client with
                docs := docsInsert b.client.docs
                  (b.client.currentIndex, "edge", docID e.base.ID e.base.revision)
                  (mapEdge e),
                bulkIndexOutcomes := b.client.bulkIndexOutcomes.tail },
              insertRev b.prevRevision e.base.ID e.base.revision⟩
          split
          · rename_i b2 val heq
            rw [heq] at hiff
            simp at hiff ⊢
            exact hiff
          · rename_i b2 heq
            rw [heq] at hiff
            simp at hiff ⊢
            simp [hiff]

/-- C2 counterexample: in a concrete rollover run the archival of the
fetched node `nX` necessarily fails (its id has no tracker entry at that
point and `updateTimes` returns false on it), yet the rollover reports no
failure and the triggering `NodeAdded` returns true. -/
theorem claim2_counterexample :
    lookupRev c2Mid.prevRevision nX.ID = none
  ∧ (c2Arch.updateTimes (Element.node { nX with updatedAt := 0 })).1 = false
  ∧ (rollAndDumpTopology 1 0 c2Mid).1 = none
  ∧ NodeAdded 1 0 c2B c2N0 = (true, (rollAndDumpTopology 1 0 c2Mid).2) := by
  refine ⟨by decide, by decide, by decide, by decide⟩

/-- C2 amended: only a RollIndex failure aborts the rollover and is
reported; archival and re-creation failures are ignored.  The triggering
create reports failure exactly when its BulkIndex fails or the rollover it
triggered failed at the RollIndex step. -/
theorem claim2_roll_abort (fuel : Nat) (now : Int) (b : Backend) (n : Node)
    (e : Edge) :
    ((rollAndDumpTopology (fuel + 1) now b).1 = none ↔
      b.client.rollOutcomes.headD true = true)
  ∧ ((createNode (fuel + 1) now b n).1 = false ↔
      (nextBulkIndexOutcome b.client = none ∨
        (nextBulkIndexOutcome b.client = some true ∧
          b.client.rollOutcomes.headD true = false)))
  ∧ ((createEdge (fuel + 1) now b e).1 = false ↔
      (nextBulkIndexOutcome b.client = none ∨
        (nextBulkIndexOutcome b.client = some true ∧
          b.client.rollOutcomes.headD true = false))) := by
  refine ⟨rollAndDumpTopology_succ_none_iff fuel now b, ?_, ?_⟩
  · exact createNodeWith_false_iff _ b n
      (fun bb => rollAndDumpTopology_succ_none_iff fuel now bb)
  · exact createEdgeWith_false_iff _ b e
      (fun bb => rollAndDumpTopology_succ_none_iff fuel now bb)

/-- C9: when BulkIndex succeeded (so the store accepted the document) and
the create nevertheless returns false because the triggered rollover
failed, the tracker entry is already set to the element's revision; a
false return from NodeAdded does not imply the tracker is unchanged. -/
theorem claim9_tracker_set_despite_failure :
    (∀ (fuel : Nat) (now : Int) (b : Backend) (n : Node) (roll : Bool)
        (b' : Backend),
        nextBulkIndexOutcome b.client = some roll →
        createNode fuel now b n = (false, b') →
        lookupRev b'.prevRevision n.ID = some n.revision)
  ∧ (∀ (fuel : Nat) (now : Int) (b : Backend) (e : Edge) (roll : Bool)
        (b' : Backend),
        nextBulkIndexOutcome b.client = some roll →
        createEdge fuel now b e = (false, b') →
        lookupRev b'.prevRevision e.base.ID = some e.base.revision)
  ∧ (NodeAdded 1 0 c9B c9N).1 = false
  ∧ (NodeAdded 1 0 c9B c9N).2.prevRevision ≠ c9B.prevRevision := by
  refine ⟨?_, ?_, by decide, by decide⟩
  · intro fuel now b n roll b' hN hres
    cases roll with
    | false =>
        simp only [createNode, createNodeWith, Client.bulkIndex, hN] at hres
        simp at hres
    | true =>
        simp only [createNode, createNodeWith, Client.bulkIndex, hN] at hres
        rw [if_pos trivial] at hres
        split at hres
        · injection hres with h1 h2
          subst h2
          rename_i b2 msg heq
          have hprev := rollAndDumpTopology_fail_prevRevision fuel now _ _ _ heq
          rw [hprev]
          exact lookupRev_insertRev_self _ _ _
        · injection hres with h1 h2
          cases h1
  · intro fuel now b e roll b' hN hres
    cases roll with
    | false =>
        simp only [createEdge, createEdgeWith, Client.bulkIndex, hN] at hres
        simp at hres
    | true =>
        simp only [createEdge, createEdgeWith, Client.bulkIndex, hN] at hres
        rw [if_pos trivial] at hres
        split at hres
        · injection hres with h1 h2
          subst h2
          rename_i b2 msg heq
          have hprev := rollAndDumpTopology_fail_prevRevision fuel now _ _ _ heq
          rw [hprev]
          exact lookupRev_insertRev_self _ _ _
        · injection hres with h1 h2
          cases h1

theorem metadataUpdated_false_step (fuel : Nat) (now : Int) (b : Backend)
    (i : Element) (b1 : Backend) (h : b.updateTimes i = (false, b1)) :
    MetadataUpdated fuel now b i = (false, b1) := by
  cases i <;> simp [MetadataUpdated, h]

theorem metadataUpdated_true_step (fuel : Nat) (now : Int) (b : Backend)
    (i : Element) (b1 : Backend) (h : b.updateTimes i = (true, b1)) :
    MetadataUpdated fuel now b i = createElement fuel now b1 i := by
  cases i <;> simp [MetadataUpdated, createElement, h]

theorem createElement_eq (fuel : Nat) (now : Int) (b : Backend) (i : Element) :
    createElement fuel now b i =
      (match b.client.bulkIndex i.kind (docID i.eID i.rev) i.mapped with
       | (none, c) => (false, { b with client := c })
       | (some shouldRoll, c) =>
          let b1 : Backend :=
            { client := c, prevRevision := insertRev b.prevRevision i.eID i.rev }
          if shouldRoll then
            match rollAndDumpTopology fuel now b1 with
            | (some _, b2) => (false, b2)
            | (none, b2) => (true, b2)
          else (true, b1)) := by
  cases i <;> rfl

theorem createElement_noRoll (fuel : Nat) (now : Int) (bU : Backend)
    (i : Element) (hN : nextBulkIndexOutcome bU.client = some false) :
    createElement fuel now bU i =
      (true,
        { client :=
            { bU.client with
                docs := docsInsert bU.client.docs
                  (bU.client.currentIndex, i.kind, docID i.eID i.rev) i.mapped,
                bulkIndexOutcomes := bU.client.bulkIndexOutcomes.tail },
          prevRevision := insertRev bU.prevRevision i.eID i.rev }) := by
  rw [createElement_eq]
  simp only [Client.bulkIndex, hN]
  simp

/-- C1: if the archival step `updateTimes` fails, `MetadataUpdated`
returns false without writing any document; after a successful
`MetadataUpdated` (here: one whose write did not trigger a rollover), the
previous revision's document carries the `ArchivedAt` stamp and the new
revision's document has been written without one. -/
theorem claim1_archive_gate :
    (∀ (fuel : Nat) (now : Int) (b : Backend) (i : Element) (b1 : Backend),
        b.updateTimes i = (false, b1) →
        MetadataUpdated fuel now b i = (false, b1) ∧
          b1.client.docs = b.client.docs)
  ∧ (∀ (fuel : Nat) (now : Int) (b : Backend) (i : Element) (r : Int)
        (b' : Backend),
        lookupRev b.prevRevision i.eID = some r →
        docID i.eID r ≠ docID i.eID i.rev →
        nextBulkIndexOutcome b.client = some false →
        MetadataUpdated fuel now b i = (true, b') →
          (∃ d, docsLookup b'.client.docs
              (b.client.currentIndex, i.kind, docID i.eID r) = some d ∧
            lookupField d "ArchivedAt" = some (Value.int i.updatedMillis))
        ∧ docsLookup b'.client.docs
            (b.client.currentIndex, i.kind, docID i.eID i.rev) = some i.mapped
        ∧ lookupField i.mapped "ArchivedAt" = none) := by
  constructor
  · intro fuel now b i b1 h
    refine ⟨metadataUpdated_false_step fuel now b i b1 h, ?_⟩
    cases hl : lookupRev b.prevRevision i.eID with
    | none =>
        simp only [Backend.updateTimes, hl] at h
        injection h with h1 h2
        rw [← h2]
    | some r =>
        simp only [Backend.updateTimes, hl, Client.bulkUpdateWithPartialDoc] at h
        by_cases hu : b.client.bulkUpdateOutcomes.headD true = true
        · rw [if_pos hu] at h
          injection h with h1 h2
          cases h1
        · rw [if_neg hu] at h
          injection h with h1 h2
          rw [← h2]
  · intro fuel now b i r b' hr hne hroll hsucc
    by_cases hu : b.client.bulkUpdateOutcomes.headD true = true
    case neg =>
        have hupd : b.updateTimes i =
            (false, { b with client :=
              { b.client with
                  bulkUpdateOutcomes := b.client.bulkUpdateOutcomes.tail } }) := by
          simp only [Backend.updateTimes, hr, Client.bulkUpdateWithPartialDoc]
          rw [if_neg hu]
        rw [metadataUpdated_false_step fuel now b i _ hupd] at hsucc
        injection hsucc with h1 h2
        cases h1
    case pos =>
        have hupd : b.updateTimes i =
            (true, { b with client :=
              { b.client with
                  docs := docsMerge b.client.docs
                    (b.client.currentIndex, i.kind, docID i.eID r)
                    [("ArchivedAt", Value.int i.updatedMillis)],
                  bulkUpdateOutcomes := b.client.bulkUpdateOutcomes.tail } }) := by
          simp only [Backend.updateTimes, hr, Client.bulkUpdateWithPartialDoc]
          rw [if_pos hu]
        rw [metadataUpdated_true_step fuel now b i _ hupd] at hsucc
        rw [createElement_noRoll fuel now
          ({ b with client :=
              { b.client with
                  docs := docsMerge b.client.docs
                    (b.client.currentIndex, i.kind, docID i.eID r)
                    [("ArchivedAt", Value.int i.updatedMillis)],
                  bulkUpdateOutcomes := b.client.bulkUpdateOutcomes.tail } })
          i hroll] at hsucc
        injection hsucc with h1 h2
        subst h2
        have hkey : ((b.client.currentIndex, i.kind, docID i.eID r) : DocKey) ≠
            (b.client.currentIndex, i.kind, docID i.eID i.rev) := by
          intro hcon
          exact hne (congrArg (fun p : DocKey => p.2.2) hcon)
        refine ⟨?_, ?_, lookupField_mapped_archivedAt i⟩
        · obtain ⟨d, hd, hf⟩ := docsMerge_single_field b.client.docs
            (b.client.currentIndex, i.kind, docID i.eID r)
            "ArchivedAt" (Value.int i.updatedMillis)
          refine ⟨d, ?_, hf⟩
          have hnd := docsLookup_docsInsert_ne
            (docsMerge b.client.docs
              (b.client.currentIndex, i.kind, docID i.eID r)
              [("ArchivedAt", Value.int i.updatedMillis)])
            (b.client.currentIndex, i.kind, docID i.eID i.rev)
            (b.client.currentIndex, i.kind, docID i.eID r)
            i.mapped hkey
          exact hnd.trans hd
        · exact docsLookup_docsInsert_self _ _ _

/-- C1 witness: a tracker miss makes `MetadataUpdated` fail and leave the
store unwritten; a successful update on `n1` (prior revision 0, new
revision 1) stamps `n1-0` and writes `n1-1` without a stamp. -/
theorem claim1_witness :
    MetadataUpdated 0 0 bMiss (Element.node n1) = (false, bMiss)
  ∧ (∃ d, docsLookup ((MetadataUpdated 0 0 bHit (Element.node n1)).2).client.docs
        (bHit.client.currentIndex, (Element.node n1).kind,
          docID (Element.node n1).eID 0) = some d ∧
      lookupField d "ArchivedAt"
        = some (Value.int (Element.node n1).updatedMillis))
  ∧ docsLookup ((MetadataUpdated 0 0 bHit (Element.node n1)).2).client.docs
      (bHit.client.currentIndex, (Element.node n1).kind,
        docID (Element.node n1).eID (Element.node n1).rev)
      = some (Element.node n1).mapped :=
  ⟨(claim1_archive_gate.1 0 0 bMiss (Element.node n1) bMiss rfl).1,
   (claim1_archive_gate.2 0 0 bHit (Element.node n1) 0
      ((MetadataUpdated 0 0 bHit (Element.node n1)).2) rfl (by decide) rfl rfl).1,
   (claim1_archive_gate.2 0 0 bHit (Element.node n1) 0
      ((MetadataUpdated 0 0 bHit (Element.node n1)).2) rfl (by decide) rfl
      rfl).2.1⟩

/-- C9 witness: in the concrete failed-rollover run the tracker holds the
new revisions although both creates returned false. -/
theorem claim9_witness :
    lookupRev ((createNode 1 0 c9B c9N).2).prevRevision c9N.ID
        = some c9N.revision
  ∧ lookupRev ((createEdge 1 0 c9B c9E).2).prevRevision c9E.base.ID
        = some c9E.base.revision :=
  ⟨claim9_tracker_set_despite_failure.1 1 0 c9B c9N true
      ((createNode 1 0 c9B c9N).2) rfl rfl,
   claim9_tracker_set_despite_failure.2.1 1 0 c9B c9E true
      ((createEdge 1 0 c9B c9E).2) rfl rfl⟩

end Skydive
